import Mathlib

/-!
Shallow embedding of the Pixleon background batch-processing subsystem
(`utils/image_processing.py`, `utils/video_processing.py`, and the widget-side
controllers in `src/widgets/`).

Modelling conventions:

* Qt signal emissions are recorded as an ordered trace of `Ev` values.  A
  worker's `run` method becomes a pure function producing that trace.  Two
  ghost constructors record observable side effects that are not signals:
  `Ev.opCall p` marks that the per-item media operation (the body of the
  `try:` block) ran to completion for input `p`, and `Ev.mkdirCall n ok`
  marks the `n`-th `os.makedirs` attempt and its result.
* The `_is_running` flag is written only by `stop()` and only from `True` to
  `False`, and the worker reads it at fixed program points.  The sequence of
  values seen by those reads is therefore `True, …, True, False, …, False`.
  A `Cancel` value records this schedule: `none` means `stop()` is never
  observed, `some k` means the first `k` reads of the flag return `True` and
  every later read returns `False`.
* The per-item media operation (Pillow `Image.open`/`save` and the
  surrounding `except` clauses) is file I/O; it is modelled by an oracle
  `op : String → String` giving, for each input path, the `status` string the
  `try`/`except` block of the source assigns for that item.
* `os.path.exists(output_dir)` / `os.makedirs(output_dir)` are modelled by a
  tracked boolean (the directory exists) plus an oracle
  `mk : Nat → Option String` giving the outcome of the `n`-th `makedirs`
  attempt (`none` = success, `some e` = `OSError` with message `e`).
-/

namespace Pixleon

/-- One observable step of a worker: the Qt signals of
`ImageConversionWorker`/`ImageCompressionWorker`/`ImageResizingWorker`
(`progress`, `file_processed`, `error`) plus the two ghost markers described
in the header. -/
inductive Ev
  | progress (done total : Nat)
  | fileProcessed (path status : String)
  | errorMsg (msg : String)
  | opCall (path : String)
  | mkdirCall (attempt : Nat) (ok : Bool)
  deriving DecidableEq, Repr

/-- Cancellation schedule for the `_is_running` flag: `none` = never stopped,
`some k` = the first `k` reads see `True`, all later reads see `False`. -/
abbrev Cancel := Option Nat

/-- One read of `self._is_running` under a `Cancel` schedule, returning the
value read and the schedule for the remaining reads. -/
def readFlag : Cancel → Bool × Cancel
  | none => (true, none)
  | some 0 => (false, some 0)
  | some (k + 1) => (true, some k)

/-- Python's `needle in hay` substring test. -/
def strIn (needle hay : String) : Bool :=
  hay.data.tails.any fun t => needle.data.isPrefixOf t

/-- Python's `s.startswith(pre)`. -/
def strStarts (pre s : String) : Bool :=
  pre.data.isPrefixOf s.data

/-- Python's `s.lower()`, character-wise. -/
def strLower (s : String) : String :=
  String.mk (s.data.map Char.toLower)

/-- Python's `s[-n:]` (the last `n` characters, or all of `s` if shorter). -/
def lastChars (n : Nat) (s : String) : String :=
  String.mk (s.data.drop (s.data.length - n))

/-- The trace of the `file_processed` signals: `(path, status)` pairs in
emission order. -/
def outcomesOf (evs : List Ev) : List (String × String) :=
  evs.filterMap fun e =>
    match e with
    | Ev.fileProcessed p s => some (p, s)
    | _ => none

/-- The trace of the `progress` signals: `(done, total)` pairs in emission
order. -/
def progressOf (evs : List Ev) : List (Nat × Nat) :=
  evs.filterMap fun e =>
    match e with
    | Ev.progress a b => some (a, b)
    | _ => none

/-- Number of `os.makedirs` attempts in a trace. -/
def mkdirCallsOf (evs : List Ev) : Nat :=
  (evs.filterMap fun e =>
    match e with
    | Ev.mkdirCall n ok => some (n, ok)
    | _ => none).length

/-- Item-outcome kinds of the spec's data model. -/
inductive Kind
  | success
  | failure
  | cancelled
  deriving DecidableEq, Repr

/-- How the widget-side outcome handlers classify a `file_processed` status
string (`_handle_file_result` in `compressor_widget.py`/`resizer_widget.py`:
`status == "Cancelled"`, `status.startswith("Success")`, else failure). -/
def classifyStatus (s : String) : Kind :=
  if s = "Cancelled" then Kind.cancelled
  else if strStarts "Success" s then Kind.success
  else Kind.failure

/-- Number of outcomes of a given kind in a trace. -/
def countKind (evs : List Ev) (k : Kind) : Nat :=
  ((outcomesOf evs).filter fun pr => classifyStatus pr.2 == k).length

/-- Number of non-`Cancelled` outcomes in a trace. -/
def countNC (evs : List Ev) : Nat :=
  ((outcomesOf evs).filter fun pr => pr.2 != "Cancelled").length

/-! ## `ImageConversionWorker.run` (image_processing.py lines 91-158) -/

/-- The per-item loop of `ImageConversionWorker.run` (lines 106-156): for each
input, read `_is_running` (`some 0`-style read `False` emits the item as
`Cancelled` and moves on); otherwise run the `try:` block (oracle `op`), read
the flag again, and either emit `file_processed(path, status)` followed by
`progress(i+1, total)` or emit `file_processed(path, "Cancelled")`. -/
def convLoop (op : String → String) (total : Nat) (i : Nat) (ps : List String)
    (c : Cancel) : List Ev :=
  match ps with
  | [] => []
  | p :: ps =>
    match readFlag c with
    | (false, c₁) =>
        Ev.fileProcessed p "Cancelled" :: convLoop op total (i + 1) ps c₁
    | (true, c₁) =>
      let status := op p
      match readFlag c₁ with
      | (true, c₂) =>
          Ev.opCall p :: Ev.fileProcessed p status ::
            Ev.progress (i + 1) total :: convLoop op total (i + 1) ps c₂
      | (false, c₂) =>
          Ev.opCall p :: Ev.fileProcessed p "Cancelled" ::
            convLoop op total (i + 1) ps c₂

/-- `ImageConversionWorker.run`: the pre-loop validations (empty input list,
empty output directory, empty target format each emit `error` and return),
then `progress(0, total)` and the item loop.  The worker never touches the
output directory itself; a missing directory surfaces inside `op`. -/
def imageConversionRun (op : String → String) (input_paths : List String)
    (output_dir target_format : String) (c : Cancel) : List Ev :=
  if input_paths = [] then [Ev.errorMsg "No input files provided."]
  else if output_dir = "" then [Ev.errorMsg "No output directory selected."]
  else if target_format = "" then [Ev.errorMsg "No target format selected."]
  else
    Ev.progress 0 input_paths.length ::
      convLoop op input_paths.length 0 input_paths c

/-! ## The shared batch loop of `ImageCompressionWorker.run` (lines 190-273)
and `ImageResizingWorker.run` (lines 312-384).

The two loop bodies are statement-for-statement identical control flow: a
loop-top `_is_running` check, the lazy `os.makedirs` block for an explicit
output directory, the `try:` block (oracle `op`), and the post-item
`_is_running` check.  They differ only inside the `try:` block and in the
output-filename suffix, both of which live in the `op` oracle here. -/

/-- The `file_processed` status for a failed `os.makedirs`
(`f"Error: Cannot create output dir {self.output_dir}: {e}"`). -/
def mkdirErrMsg (d e : String) : String :=
  "Error: Cannot create output dir " ++ d ++ ": " ++ e

/-- Batch loop with the lazy output-directory creation.  `output_dir = none`
models a falsy `self.output_dir` (save in place); `dirExists` models
`os.path.exists(self.output_dir)`; `att` counts `makedirs` attempts. -/
def batchMkdirLoop (op : String → String) (mk : Nat → Option String)
    (output_dir : Option String) (total : Nat) (i : Nat) (ps : List String)
    (dirExists : Bool) (att : Nat) (c : Cancel) : List Ev :=
  match ps with
  | [] => []
  | p :: ps =>
    match readFlag c with
    | (false, c₁) =>
        Ev.fileProcessed p "Cancelled" ::
          batchMkdirLoop op mk output_dir total (i + 1) ps dirExists att c₁
    | (true, c₁) =>
      match output_dir, dirExists with
      | some d, false =>
        match mk att with
        | some e =>
            Ev.mkdirCall att false ::
              Ev.fileProcessed p (mkdirErrMsg d e) ::
                Ev.progress (i + 1) total ::
                  batchMkdirLoop op mk output_dir total (i + 1) ps false
                    (att + 1) c₁
        | none =>
          let status := op p
          match readFlag c₁ with
          | (true, c₂) =>
              Ev.mkdirCall att true :: Ev.opCall p ::
                Ev.fileProcessed p status :: Ev.progress (i + 1) total ::
                  batchMkdirLoop op mk output_dir total (i + 1) ps true
                    (att + 1) c₂
          | (false, c₂) =>
              Ev.mkdirCall att true :: Ev.opCall p ::
                Ev.fileProcessed p "Cancelled" ::
                  batchMkdirLoop op mk output_dir total (i + 1) ps true
                    (att + 1) c₂
      | _, _ =>
        let status := op p
        match readFlag c₁ with
        | (true, c₂) =>
            Ev.opCall p :: Ev.fileProcessed p status ::
              Ev.progress (i + 1) total ::
                batchMkdirLoop op mk output_dir total (i + 1) ps dirExists att
                  c₂
        | (false, c₂) =>
            Ev.opCall p :: Ev.fileProcessed p "Cancelled" ::
              batchMkdirLoop op mk output_dir total (i + 1) ps dirExists att c₂

/-- `ImageCompressionWorker.run`: empty-input validation, `progress(0, total)`,
then the batch loop. -/
def imageCompressionRun (op : String → String) (mk : Nat → Option String)
    (input_paths : List String) (output_dir : Option String)
    (dirExists0 : Bool) (c : Cancel) : List Ev :=
  if input_paths = [] then [Ev.errorMsg "No input files provided."]
  else
    Ev.progress 0 input_paths.length ::
      batchMkdirLoop op mk output_dir input_paths.length 0 input_paths
        dirExists0 0 c

/-- `ImageResizingWorker.run`: empty-input and positive-dimension validations,
`progress(0, total)`, then the batch loop. -/
def imageResizingRun (op : String → String) (mk : Nat → Option String)
    (input_paths : List String) (output_dir : Option String)
    (target_width target_height : Int) (dirExists0 : Bool) (c : Cancel) :
    List Ev :=
  if input_paths = [] then [Ev.errorMsg "No input files provided."]
  else if target_width ≤ 0 ∨ target_height ≤ 0 then
    [Ev.errorMsg "Target width and height must be positive."]
  else
    Ev.progress 0 input_paths.length ::
      batchMkdirLoop op mk output_dir input_paths.length 0 input_paths
        dirExists0 0 c

/-- Closed form of a fully processed run segment: items `i, i+1, …` each
contribute `opCall`, `file_processed(p, op p)`, `progress(i+1, total)`. -/
def fullItems (op : String → String) (total : Nat) (i : Nat) :
    List String → List Ev
  | [] => []
  | p :: ps =>
      Ev.opCall p :: Ev.fileProcessed p (op p) ::
        Ev.progress (i + 1) total :: fullItems op total (i + 1) ps

/-! ## `ImageResizingWorker` target-dimension computation (lines 341-353).

Python float arithmetic is modelled exactly over `ℚ`; `int(x)` is truncation
toward zero. -/

/-- Python's `int(q)`: truncation toward zero. -/
def pyInt (q : ℚ) : Int :=
  if 0 ≤ q then ⌊q⌋ else ⌈q⌉

/-- Lines 341-353 of `ImageResizingWorker.run`: with `keep_aspect` on, scale
by the smaller of `target_width/original_width` and
`target_height/original_height`, truncate with `int(...)`, and clamp each
axis to at least 1; otherwise use the exact target dimensions. -/
def computeNewSize (original_width original_height target_width target_height :
    Nat) (keep_aspect : Bool) : Nat × Nat :=
  if keep_aspect then
    let width_ratio : ℚ := (target_width : ℚ) / (original_width : ℚ)
    let height_ratio : ℚ := (target_height : ℚ) / (original_height : ℚ)
    let ratio := min width_ratio height_ratio
    let new_width := (pyInt ((original_width : ℚ) * ratio)).toNat
    let new_height := (pyInt ((original_height : ℚ) * ratio)).toNat
    (max 1 new_width, max 1 new_height)
  else (target_width, target_height)

/-- The spec's aspect-locked formula, stated verbatim for comparison with the
source computation: `w = max(1, floor(W*r))`, `h = max(1, floor(H*r))`,
`r = min(Tw/W, Th/H)`. -/
def specAspectLockedDims (W H Tw Th : Nat) : Nat × Nat :=
  let r : ℚ := min ((Tw : ℚ) / (W : ℚ)) ((Th : ℚ) / (H : ℚ))
  (max 1 (⌊(W : ℚ) * r⌋).toNat, max 1 (⌊(H : ℚ) * r⌋).toNat)

/-! ## `VideoCompressionWorker.run` result handling
(video_processing.py lines 139-156 and the `finally` block at 171-177). -/

/-- Lines 139-156 of `VideoCompressionWorker.run`: the `status` computed once
`communicate()` has returned.  `running1` is the value of `_is_running` at the
line-140 check, `return_code` the process exit code, `std_err` the captured
diagnostic stream, `output_filename` the `{basename}_compressed.mp4` name. -/
def videoResultStatus (running1 : Bool) (return_code : Int) (std_err : String)
    (output_filename : String) : String :=
  if running1 = false then "Cancelled"
  else if return_code = 0 then
    if strIn "Error" std_err || strIn "failed" (strLower std_err) then
      "Error: FFmpeg reported issues.\nDetails:\n" ++ lastChars 500 std_err
    else "Success (" ++ output_filename ++ ")"
  else
    "Error: FFmpeg failed (code " ++ toString return_code ++
      ").\nDetails:\n" ++ lastChars 500 std_err

/-- The `finally` block (lines 171-177): the terminal `finished` payload is
the computed status if `_is_running` is still set (`running2`), and
`"Cancelled"` otherwise. -/
def videoTerminalStatus (running1 running2 : Bool) (return_code : Int)
    (std_err : String) (output_filename : String) : String :=
  if running2 then videoResultStatus running1 return_code std_err
    output_filename
  else "Cancelled"

/-! ## `VideoCompressorWidget` quality table
(video_compressor_widget.py lines 40-48 and 206-208). -/

/-- The `QUALITY_TO_CRF` dictionary. -/
def QUALITY_TO_CRF (q : Int) : Option Int :=
  if q = 1 then some 30
  else if q = 2 then some 28
  else if q = 3 then some 25
  else if q = 4 then some 23
  else if q = 5 then some 20
  else none

/-- Line 208 of `_start_compression`:
`crf_value = self.QUALITY_TO_CRF.get(quality_level, 25)`. -/
def crfForQuality (quality_level : Int) : Int :=
  (QUALITY_TO_CRF quality_level).getD 25

/-! ## `BackgroundRemovalWorker.run` (image_processing.py lines 26-59). -/

/-- Signals of `BackgroundRemovalWorker` plus QThread's own `finished`. -/
inductive BgEv
  | resultReady (data : String)
  | errorSig (msg : String)
  | finishedSig
  deriving DecidableEq, Repr

/-- `BackgroundRemovalWorker.run`: initial `_is_running` check, the `try:`
block (file read plus `rembg.remove`, modelled by `removal`: `Except.error m`
is the path through an `except` clause emitting `error(m)`, `Except.ok d` a
completed removal with result bytes `d`), the post-operation `_is_running`
check guarding `result_ready`, and QThread's automatic `finished` once `run`
returns.  An `except` clause emits `error` without consulting the flag. -/
def backgroundRemovalRun (removal : Except String String) (c : Cancel) :
    List BgEv :=
  match readFlag c with
  | (false, _) => [BgEv.finishedSig]
  | (true, c₁) =>
    match removal with
    | Except.error msg => [BgEv.errorSig msg, BgEv.finishedSig]
    | Except.ok output_data =>
      match readFlag c₁ with
      | (false, _) => [BgEv.finishedSig]
      | (true, _) => [BgEv.resultReady output_data, BgEv.finishedSig]

/-! ## `ConverterWidget` start-request handling
(converter_widget.py lines 128-135 and 169-202).

The widget state is reduced to the fields `_start_conversion` and
`_update_convert_button_state` read or write.  `workerActive` models
`self.worker is not None and self.worker.isRunning()`; `runnersStarted`
counts `ImageConversionWorker(...)` constructions; `notices` records the
`QMessageBox` pop-ups shown by `_start_conversion`. -/

structure ConvUi where
  selected_files : List String
  output_directory : Option String
  formatResolvable : Bool
  workerActive : Bool
  convertEnabled : Bool
  runnersStarted : Nat
  notices : List String
  deriving DecidableEq, Repr

/-- `_update_convert_button_state` (line 130): the Convert button is enabled
iff files are selected, an output directory is set, and no worker is
running. -/
def updateConvertButtonState (s : ConvUi) : ConvUi :=
  { s with convertEnabled :=
      s.selected_files ≠ [] ∧ s.output_directory.isSome ∧
        ¬s.workerActive }

/-- `_start_conversion` (lines 169-202): warn and return on missing inputs or
an unresolvable format; otherwise refresh the button state (with the *old*
worker still in `self.worker`), then construct and start a new
`ImageConversionWorker`.  There is no `isRunning()` guard, and no button
refresh happens after `self.worker.start()`. -/
def startConversion (s : ConvUi) : ConvUi :=
  if s.selected_files = [] ∨ s.output_directory = none then
    { s with notices := s.notices ++ ["Input Missing"] }
  else if ¬s.formatResolvable then
    { s with notices := s.notices ++ ["Invalid target format selected."] }
  else
    let s := updateConvertButtonState s
    { s with workerActive := true, runnersStarted := s.runnersStarted + 1 }

/-- A user click on the Convert button: Qt delivers the click only while the
button is enabled. -/
def clickConvert (s : ConvUi) : ConvUi :=
  if s.convertEnabled then startConversion s else s

/-- `ConverterWidget` idle state right before a run: files and output
directory selected, resolvable format, no worker, Convert enabled. -/
def convIdleState : ConvUi :=
  { selected_files := ["a.png", "b.png"]
    output_directory := some "out"
    formatResolvable := true
    workerActive := false
    convertEnabled := true
    runnersStarted := 0
    notices := [] }

/-! ## Concrete oracles used by witnesses and counterexamples. -/

/-- An operation oracle whose every item succeeds. -/
def opAllSuccess : String → String := fun _ => "Success"

/-- An operation oracle for a run against a missing output directory: every
`Image.save` raises `FileNotFoundError`, so the `except` clause assigns
`"Error: File not found"`. -/
def opSaveFnf : String → String := fun _ => "Error: File not found"

/-- A `makedirs` oracle that always succeeds. -/
def mkAllOk : Nat → Option String := fun _ => none

/-- A `makedirs` oracle that always fails with `"Permission denied"`. -/
def mkAllFail : Nat → Option String := fun _ => some "Permission denied"

/-! ## Basic trace lemmas -/

@[simp] lemma outcomesOf_nil : outcomesOf [] = [] := rfl

@[simp] lemma outcomesOf_cons_fp (p s : String) (evs : List Ev) :
    outcomesOf (Ev.fileProcessed p s :: evs) = (p, s) :: outcomesOf evs := rfl

@[simp] lemma outcomesOf_cons_progress (a b : Nat) (evs : List Ev) :
    outcomesOf (Ev.progress a b :: evs) = outcomesOf evs := rfl

@[simp] lemma outcomesOf_cons_err (m : String) (evs : List Ev) :
    outcomesOf (Ev.errorMsg m :: evs) = outcomesOf evs := rfl

@[simp] lemma outcomesOf_cons_op (p : String) (evs : List Ev) :
    outcomesOf (Ev.opCall p :: evs) = outcomesOf evs := rfl

@[simp] lemma outcomesOf_cons_mkdir (n : Nat) (ok : Bool) (evs : List Ev) :
    outcomesOf (Ev.mkdirCall n ok :: evs) = outcomesOf evs := rfl

@[simp] lemma outcomesOf_append (l₁ l₂ : List Ev) :
    outcomesOf (l₁ ++ l₂) = outcomesOf l₁ ++ outcomesOf l₂ :=
  List.filterMap_append l₁ l₂ _

@[simp] lemma progressOf_nil : progressOf [] = [] := rfl

@[simp] lemma progressOf_cons_fp (p s : String) (evs : List Ev) :
    progressOf (Ev.fileProcessed p s :: evs) = progressOf evs := rfl

@[simp] lemma progressOf_cons_progress (a b : Nat) (evs : List Ev) :
    progressOf (Ev.progress a b :: evs) = (a, b) :: progressOf evs := rfl

@[simp] lemma progressOf_cons_err (m : String) (evs : List Ev) :
    progressOf (Ev.errorMsg m :: evs) = progressOf evs := rfl

@[simp] lemma progressOf_cons_op (p : String) (evs : List Ev) :
    progressOf (Ev.opCall p :: evs) = progressOf evs := rfl

@[simp] lemma progressOf_cons_mkdir (n : Nat) (ok : Bool) (evs : List Ev) :
    progressOf (Ev.mkdirCall n ok :: evs) = progressOf evs := rfl

@[simp] lemma progressOf_append (l₁ l₂ : List Ev) :
    progressOf (l₁ ++ l₂) = progressOf l₁ ++ progressOf l₂ :=
  List.filterMap_append l₁ l₂ _

@[simp] lemma mkdirCallsOf_nil : mkdirCallsOf [] = 0 := rfl

@[simp] lemma mkdirCallsOf_cons_fp (p s : String) (evs : List Ev) :
    mkdirCallsOf (Ev.fileProcessed p s :: evs) = mkdirCallsOf evs := rfl

@[simp] lemma mkdirCallsOf_cons_progress (a b : Nat) (evs : List Ev) :
    mkdirCallsOf (Ev.progress a b :: evs) = mkdirCallsOf evs := rfl

@[simp] lemma mkdirCallsOf_cons_err (m : String) (evs : List Ev) :
    mkdirCallsOf (Ev.errorMsg m :: evs) = mkdirCallsOf evs := rfl

@[simp] lemma mkdirCallsOf_cons_op (p : String) (evs : List Ev) :
    mkdirCallsOf (Ev.opCall p :: evs) = mkdirCallsOf evs := rfl

@[simp] lemma mkdirCallsOf_cons_mkdir (n : Nat) (ok : Bool) (evs : List Ev) :
    mkdirCallsOf (Ev.mkdirCall n ok :: evs) = mkdirCallsOf evs + 1 := rfl

@[simp] lemma countNC_nil : countNC [] = 0 := rfl

lemma countNC_cons_fp_ne (p s : String) (evs : List Ev) (h : s ≠ "Cancelled") :
    countNC (Ev.fileProcessed p s :: evs) = countNC evs + 1 := by
  simp [countNC, List.filter_cons, bne_iff_ne.mpr h]

@[simp] lemma countNC_cons_fp_cancelled (p : String) (evs : List Ev) :
    countNC (Ev.fileProcessed p "Cancelled" :: evs) = countNC evs := by
  simp [countNC, List.filter_cons]

@[simp] lemma countNC_cons_progress (a b : Nat) (evs : List Ev) :
    countNC (Ev.progress a b :: evs) = countNC evs := rfl

@[simp] lemma countNC_cons_err (m : String) (evs : List Ev) :
    countNC (Ev.errorMsg m :: evs) = countNC evs := rfl

@[simp] lemma countNC_cons_op (p : String) (evs : List Ev) :
    countNC (Ev.opCall p :: evs) = countNC evs := rfl

@[simp] lemma countNC_cons_mkdir (n : Nat) (ok : Bool) (evs : List Ev) :
    countNC (Ev.mkdirCall n ok :: evs) = countNC evs := rfl

lemma mkdirErrMsg_ne_cancelled (d e : String) : mkdirErrMsg d e ≠ "Cancelled" := by
  intro h
  have h2 : (mkdirErrMsg d e).data.length = ("Cancelled" : String).data.length := by
    rw [h]
  have l1 : ("Error: Cannot create output dir " : String).data.length = 32 := rfl
  have l2 : (": " : String).data.length = 2 := rfl
  have l3 : ("Cancelled" : String).data.length = 9 := rfl
  simp [mkdirErrMsg, String.data_append, List.length_append, l1, l2, l3] at h2

/-! ## `fullItems` projections -/

lemma outcomesOf_fullItems (op : String → String) (N : Nat) :
    ∀ (i : Nat) (ps : List String),
      outcomesOf (fullItems op N i ps) = ps.map fun p => (p, op p) := by
  intro i ps
  induction ps generalizing i with
  | nil => rfl
  | cons p ps ih => simp [fullItems, ih]

lemma progressOf_fullItems (op : String → String) (N : Nat) :
    ∀ (i : Nat) (ps : List String),
      progressOf (fullItems op N i ps) =
        (List.range' (i + 1) ps.length).map fun j => (j, N) := by
  intro i ps
  induction ps generalizing i with
  | nil => rfl
  | cons p ps ih => simp [fullItems, ih, List.range'_succ]

lemma mkdirCallsOf_fullItems (op : String → String) (N : Nat) :
    ∀ (i : Nat) (ps : List String), mkdirCallsOf (fullItems op N i ps) = 0 := by
  intro i ps
  induction ps generalizing i with
  | nil => rfl
  | cons p ps ih => simp [fullItems, ih]

lemma countNC_fullItems (op : String → String) (N : Nat)
    (hop : ∀ p, op p ≠ "Cancelled") :
    ∀ (i : Nat) (ps : List String),
      countNC (fullItems op N i ps) = ps.length := by
  intro i ps
  induction ps generalizing i with
  | nil => rfl
  | cons p ps ih =>
      simp [fullItems, countNC_cons_fp_ne _ _ _ (hop p), ih]

lemma outcomesOf_cancelledMap (ps : List String) :
    outcomesOf (ps.map fun p => Ev.fileProcessed p "Cancelled") =
      ps.map fun p => (p, "Cancelled") := by
  induction ps with
  | nil => rfl
  | cons p ps ih => simp [ih]

lemma progressOf_cancelledMap (ps : List String) :
    progressOf (ps.map fun p => Ev.fileProcessed p "Cancelled") = [] := by
  induction ps with
  | nil => rfl
  | cons p ps ih => simp [ih]

lemma countNC_cancelledMap (ps : List String) :
    countNC (ps.map fun p => Ev.fileProcessed p "Cancelled") = 0 := by
  induction ps with
  | nil => rfl
  | cons p ps ih => simp [ih]

/-! ## `convLoop` case equations and closed forms -/

lemma convLoop_cons_none (op : String → String) (N i : Nat) (p : String)
    (ps : List String) :
    convLoop op N i (p :: ps) none =
      Ev.opCall p :: Ev.fileProcessed p (op p) :: Ev.progress (i + 1) N ::
        convLoop op N (i + 1) ps none := rfl

lemma convLoop_cons_zero (op : String → String) (N i : Nat) (p : String)
    (ps : List String) :
    convLoop op N i (p :: ps) (some 0) =
      Ev.fileProcessed p "Cancelled" :: convLoop op N (i + 1) ps (some 0) := rfl

lemma convLoop_cons_one (op : String → String) (N i : Nat) (p : String)
    (ps : List String) :
    convLoop op N i (p :: ps) (some 1) =
      Ev.opCall p :: Ev.fileProcessed p "Cancelled" ::
        convLoop op N (i + 1) ps (some 0) := rfl

lemma convLoop_cons_succ_succ (op : String → String) (N i : Nat) (p : String)
    (ps : List String) (k : Nat) :
    convLoop op N i (p :: ps) (some (k + 2)) =
      Ev.opCall p :: Ev.fileProcessed p (op p) :: Ev.progress (i + 1) N ::
        convLoop op N (i + 1) ps (some k) := rfl

lemma convLoop_none (op : String → String) (N : Nat) :
    ∀ (i : Nat) (ps : List String),
      convLoop op N i ps none = fullItems op N i ps := by
  intro i ps
  induction ps generalizing i with
  | nil => rfl
  | cons p ps ih => rw [convLoop_cons_none, ih]; rfl

lemma convLoop_zero (op : String → String) (N : Nat) :
    ∀ (i : Nat) (ps : List String),
      convLoop op N i ps (some 0) =
        ps.map fun p => Ev.fileProcessed p "Cancelled" := by
  intro i ps
  induction ps generalizing i with
  | nil => rfl
  | cons p ps ih => rw [convLoop_cons_zero, ih]; rfl

lemma convLoop_even (op : String → String) (N : Nat) :
    ∀ (k i : Nat) (ps : List String),
      convLoop op N i ps (some (2 * k)) =
        fullItems op N i (ps.take k) ++
          (ps.drop k).map fun p => Ev.fileProcessed p "Cancelled" := by
  intro k
  induction k with
  | zero =>
      intro i ps
      simpa [fullItems] using convLoop_zero op N i ps
  | succ k ih =>
      intro i ps
      cases ps with
      | nil => rfl
      | cons p ps =>
          have h2 : 2 * (k + 1) = 2 * k + 2 := by ring
          rw [h2, convLoop_cons_succ_succ, ih]
          simp [fullItems]

lemma convLoop_odd (op : String → String) (N : Nat) :
    ∀ (j i : Nat) (ps : List String) (h : j < ps.length),
      convLoop op N i ps (some (2 * j + 1)) =
        fullItems op N i (ps.take j) ++
          Ev.opCall (ps.get ⟨j, h⟩) ::
            Ev.fileProcessed (ps.get ⟨j, h⟩) "Cancelled" ::
              ((ps.drop (j + 1)).map fun p =>
                Ev.fileProcessed p "Cancelled") := by
  intro j
  induction j with
  | zero =>
      intro i ps h
      cases ps with
      | nil => simp at h
      | cons p ps =>
          rw [show 2 * 0 + 1 = 1 from rfl, convLoop_cons_one, convLoop_zero]
          simp [fullItems]
  | succ j ih =>
      intro i ps h
      cases ps with
      | nil => simp at h
      | cons p ps =>
          have h2 : 2 * (j + 1) + 1 = (2 * j + 1) + 2 := by ring
          have h3 : j < ps.length := by simpa using Nat.lt_of_succ_lt_succ h
          rw [h2, convLoop_cons_succ_succ, ih i.succ ps h3]
          simp [fullItems]

lemma convLoop_mapFst (op : String → String) (N : Nat) :
    ∀ (ps : List String) (i : Nat) (c : Cancel),
      (outcomesOf (convLoop op N i ps c)).map Prod.fst = ps := by
  intro ps
  induction ps with
  | nil => intro i c; rfl
  | cons p ps ih =>
      intro i c
      rcases c with _ | k
      · rw [convLoop_cons_none]; simp [ih]
      · rcases k with _ | k
        · rw [convLoop_cons_zero]; simp [ih]
        · rcases k with _ | k
          · rw [convLoop_cons_one]; simp [ih]
          · have e : k + 1 + 1 = k + 2 := rfl
            rw [e, convLoop_cons_succ_succ]; simp [ih]

lemma convLoop_mkdirCalls (op : String → String) (N : Nat) :
    ∀ (ps : List String) (i : Nat) (c : Cancel),
      mkdirCallsOf (convLoop op N i ps c) = 0 := by
  intro ps
  induction ps with
  | nil => intro i c; rfl
  | cons p ps ih =>
      intro i c
      rcases c with _ | k
      · rw [convLoop_cons_none]; simp [ih]
      · rcases k with _ | k
        · rw [convLoop_cons_zero]; simp [ih]
        · rcases k with _ | k
          · rw [convLoop_cons_one]; simp [ih]
          · have e : k + 1 + 1 = k + 2 := rfl
            rw [e, convLoop_cons_succ_succ]; simp [ih]

lemma convLoop_progress (op : String → String) (N : Nat)
    (hop : ∀ p, op p ≠ "Cancelled") :
    ∀ (ps : List String) (i : Nat) (c : Cancel),
      progressOf (convLoop op N i ps c) =
        (List.range' (i + 1) (countNC (convLoop op N i ps c))).map
          fun j => (j, N) := by
  intro ps
  induction ps with
  | nil => intro i c; rfl
  | cons p ps ih =>
      intro i c
      rcases c with _ | k
      · rw [convLoop_cons_none, convLoop_none]
        simp only [progressOf_cons_op, progressOf_cons_fp,
          progressOf_cons_progress]
        rw [countNC_cons_op, countNC_cons_fp_ne _ _ _ (hop p),
          countNC_cons_progress, progressOf_fullItems op N (i + 1) ps,
          countNC_fullItems op N hop (i + 1) ps, List.range'_succ]
        simp
      · rcases k with _ | k
        · rw [convLoop_cons_zero, convLoop_zero op N]
          simp [progressOf_cancelledMap, countNC_cancelledMap]
        · rcases k with _ | k
          · rw [convLoop_cons_one, convLoop_zero op N]
            simp [progressOf_cancelledMap, countNC_cancelledMap]
          · have e : k + 1 + 1 = k + 2 := rfl
            rw [e, convLoop_cons_succ_succ]
            simp only [progressOf_cons_op, progressOf_cons_fp,
              progressOf_cons_progress]
            rw [countNC_cons_op, countNC_cons_fp_ne _ _ _ (hop p),
              countNC_cons_progress, List.range'_succ, ih (i + 1) (some k)]
            simp

lemma convLoop_none_countNC (op : String → String) (N : Nat)
    (hop : ∀ p, op p ≠ "Cancelled") (ps : List String) (i : Nat) :
    countNC (convLoop op N i ps none) = ps.length := by
  rw [convLoop_none, countNC_fullItems op N hop]

/-! ## `batchMkdirLoop` case equations and closed forms -/

lemma bm_cons_zero (op : String → String) (mk : Nat → Option String)
    (od : Option String) (N i : Nat) (p : String) (ps : List String)
    (ex : Bool) (att : Nat) :
    batchMkdirLoop op mk od N i (p :: ps) ex att (some 0) =
      Ev.fileProcessed p "Cancelled" ::
        batchMkdirLoop op mk od N (i + 1) ps ex att (some 0) := rfl

lemma bm_cons_mkfail_none (op : String → String) (mk : Nat → Option String)
    (d : String) (N i : Nat) (p : String) (ps : List String) (att : Nat)
    (e : String) (hmk : mk att = some e) :
    batchMkdirLoop op mk (some d) N i (p :: ps) false att none =
      Ev.mkdirCall att false :: Ev.fileProcessed p (mkdirErrMsg d e) ::
        Ev.progress (i + 1) N ::
          batchMkdirLoop op mk (some d) N (i + 1) ps false (att + 1) none := by
  simp only [batchMkdirLoop, readFlag, hmk]

lemma bm_cons_mkfail_some (op : String → String) (mk : Nat → Option String)
    (d : String) (N i : Nat) (p : String) (ps : List String) (att k : Nat)
    (e : String) (hmk : mk att = some e) :
    batchMkdirLoop op mk (some d) N i (p :: ps) false att (some (k + 1)) =
      Ev.mkdirCall att false :: Ev.fileProcessed p (mkdirErrMsg d e) ::
        Ev.progress (i + 1) N ::
          batchMkdirLoop op mk (some d) N (i + 1) ps false (att + 1)
            (some k) := by
  simp only [batchMkdirLoop, readFlag, hmk]

lemma bm_cons_mkok_none (op : String → String) (mk : Nat → Option String)
    (d : String) (N i : Nat) (p : String) (ps : List String) (att : Nat)
    (hmk : mk att = none) :
    batchMkdirLoop op mk (some d) N i (p :: ps) false att none =
      Ev.mkdirCall att true :: Ev.opCall p :: Ev.fileProcessed p (op p) ::
        Ev.progress (i + 1) N ::
          batchMkdirLoop op mk (some d) N (i + 1) ps true (att + 1) none := by
  simp only [batchMkdirLoop, readFlag, hmk]

lemma bm_cons_mkok_one (op : String → String) (mk : Nat → Option String)
    (d : String) (N i : Nat) (p : String) (ps : List String) (att : Nat)
    (hmk : mk att = none) :
    batchMkdirLoop op mk (some d) N i (p :: ps) false att (some 1) =
      Ev.mkdirCall att true :: Ev.opCall p ::
        Ev.fileProcessed p "Cancelled" ::
          batchMkdirLoop op mk (some d) N (i + 1) ps true (att + 1)
            (some 0) := by
  simp only [batchMkdirLoop, readFlag, hmk]

lemma bm_cons_mkok_succ_succ (op : String → String) (mk : Nat → Option String)
    (d : String) (N i : Nat) (p : String) (ps : List String) (att k : Nat)
    (hmk : mk att = none) :
    batchMkdirLoop op mk (some d) N i (p :: ps) false att (some (k + 2)) =
      Ev.mkdirCall att true :: Ev.opCall p :: Ev.fileProcessed p (op p) ::
        Ev.progress (i + 1) N ::
          batchMkdirLoop op mk (some d) N (i + 1) ps true (att + 1)
            (some k) := by
  simp only [batchMkdirLoop, readFlag, hmk]

/-- With no explicit output directory, or with the directory already present,
the compression/resizing loop is the conversion loop: the `makedirs` block is
dead and every emission coincides. -/
lemma bm_eq_conv (op : String → String) (mk : Nat → Option String) (N : Nat) :
    ∀ (ps : List String) (i att : Nat) (od : Option String) (ex : Bool)
      (c : Cancel), (od = none ∨ ex = true) →
      batchMkdirLoop op mk od N i ps ex att c = convLoop op N i ps c := by
  intro ps
  induction ps with
  | nil => intros; rfl
  | cons p ps ih =>
      intro i att od ex c h
      rcases od with _ | d
      · rcases c with _ | (_ | (_ | k))
        · simp only [batchMkdirLoop, convLoop, readFlag]
          rw [ih (i + 1) att none ex none (Or.inl rfl)]
        · simp only [batchMkdirLoop, convLoop, readFlag]
          rw [ih (i + 1) att none ex (some 0) (Or.inl rfl)]
        · simp only [batchMkdirLoop, convLoop, readFlag]
          rw [ih (i + 1) att none ex (some 0) (Or.inl rfl)]
        · simp only [batchMkdirLoop, convLoop, readFlag]
          rw [ih (i + 1) att none ex (some k) (Or.inl rfl)]
      · have hex : ex = true := h.resolve_left (by simp)
        subst hex
        rcases c with _ | (_ | (_ | k))
        · simp only [batchMkdirLoop, convLoop, readFlag]
          rw [ih (i + 1) att (some d) true none (Or.inr rfl)]
        · simp only [batchMkdirLoop, convLoop, readFlag]
          rw [ih (i + 1) att (some d) true (some 0) (Or.inr rfl)]
        · simp only [batchMkdirLoop, convLoop, readFlag]
          rw [ih (i + 1) att (some d) true (some 0) (Or.inr rfl)]
        · simp only [batchMkdirLoop, convLoop, readFlag]
          rw [ih (i + 1) att (some d) true (some k) (Or.inr rfl)]

lemma bm_some0 (op : String → String) (mk : Nat → Option String)
    (od : Option String) (N : Nat) :
    ∀ (ps : List String) (i att : Nat) (ex : Bool),
      batchMkdirLoop op mk od N i ps ex att (some 0) =
        ps.map fun p => Ev.fileProcessed p "Cancelled" := by
  intro ps
  induction ps with
  | nil => intros; rfl
  | cons p ps ih =>
      intro i att ex
      rw [bm_cons_zero, ih]
      rfl

lemma mapFst_pairConst (s : String) (ps : List String) :
    (ps.map fun p => (p, s)).map Prod.fst = ps := by
  induction ps with
  | nil => rfl
  | cons p ps ih => simp [ih]

lemma bm_mapFst (op : String → String) (mk : Nat → Option String) (N : Nat) :
    ∀ (ps : List String) (i att : Nat) (od : Option String) (ex : Bool)
      (c : Cancel),
      (outcomesOf (batchMkdirLoop op mk od N i ps ex att c)).map Prod.fst =
        ps := by
  intro ps
  induction ps with
  | nil => intros; rfl
  | cons p ps ih =>
      intro i att od ex c
      rcases od with _ | d
      · rw [bm_eq_conv op mk N _ i att none ex c (Or.inl rfl),
          convLoop_mapFst]
      · cases ex with
        | true =>
            rw [bm_eq_conv op mk N _ i att (some d) true c (Or.inr rfl),
              convLoop_mapFst]
        | false =>
            rcases c with _ | k
            · rcases hmk : mk att with _ | e
              · rw [bm_cons_mkok_none op mk d N i p ps att hmk,
                  bm_eq_conv op mk N ps (i + 1) (att + 1) (some d) true none
                    (Or.inr rfl)]
                simp [convLoop_mapFst]
              · rw [bm_cons_mkfail_none op mk d N i p ps att e hmk]
                simp [ih]
            · rcases k with _ | k
              · rw [bm_cons_zero]; simp [ih]
              · rcases hmk : mk att with _ | e
                · rcases k with _ | k
                  · rw [bm_cons_mkok_one op mk d N i p ps att hmk,
                      bm_eq_conv op mk N ps (i + 1) (att + 1) (some d) true
                        (some 0) (Or.inr rfl), convLoop_zero op N]
                    simp only [outcomesOf_cons_mkdir, outcomesOf_cons_op,
                      outcomesOf_cons_fp, outcomesOf_cancelledMap,
                      List.map_cons]
                    rw [mapFst_pairConst]
                  · have e2 : k + 1 + 1 = k + 2 := rfl
                    rw [e2, bm_cons_mkok_succ_succ op mk d N i p ps att k hmk,
                      bm_eq_conv op mk N ps (i + 1) (att + 1) (some d) true
                        (some k) (Or.inr rfl)]
                    simp [convLoop_mapFst]
                · rw [bm_cons_mkfail_some op mk d N i p ps att k e hmk]
                  simp [ih]

lemma bm_progress (op : String → String) (mk : Nat → Option String) (N : Nat)
    (hop : ∀ p, op p ≠ "Cancelled") :
    ∀ (ps : List String) (i att : Nat) (od : Option String) (ex : Bool)
      (c : Cancel),
      progressOf (batchMkdirLoop op mk od N i ps ex att c) =
        (List.range' (i + 1)
          (countNC (batchMkdirLoop op mk od N i ps ex att c))).map
            fun j => (j, N) := by
  intro ps
  induction ps with
  | nil => intros; rfl
  | cons p ps ih =>
      intro i att od ex c
      rcases od with _ | d
      · rw [bm_eq_conv op mk N _ i att none ex c (Or.inl rfl)]
        exact convLoop_progress op N hop _ i c
      · cases ex with
        | true =>
            rw [bm_eq_conv op mk N _ i att (some d) true c (Or.inr rfl)]
            exact convLoop_progress op N hop _ i c
        | false =>
            rcases c with _ | k
            · rcases hmk : mk att with _ | e
              · rw [bm_cons_mkok_none op mk d N i p ps att hmk,
                  bm_eq_conv op mk N ps (i + 1) (att + 1) (some d) true none
                    (Or.inr rfl), convLoop_none]
                simp only [progressOf_cons_mkdir, progressOf_cons_op,
                  progressOf_cons_fp, progressOf_cons_progress]
                rw [countNC_cons_mkdir, countNC_cons_op,
                  countNC_cons_fp_ne _ _ _ (hop p), countNC_cons_progress,
                  progressOf_fullItems op N (i + 1) ps,
                  countNC_fullItems op N hop (i + 1) ps, List.range'_succ]
                simp
              · rw [bm_cons_mkfail_none op mk d N i p ps att e hmk]
                simp only [progressOf_cons_mkdir, progressOf_cons_fp,
                  progressOf_cons_progress]
                rw [countNC_cons_mkdir,
                  countNC_cons_fp_ne _ _ _ (mkdirErrMsg_ne_cancelled d e),
                  countNC_cons_progress, List.range'_succ,
                  ih (i + 1) (att + 1) (some d) false none]
                simp
            · rcases k with _ | k
              · rw [bm_cons_zero, bm_some0]
                simp [progressOf_cancelledMap, countNC_cancelledMap]
              · rcases hmk : mk att with _ | e
                · rcases k with _ | k
                  · rw [bm_cons_mkok_one op mk d N i p ps att hmk,
                      bm_eq_conv op mk N ps (i + 1) (att + 1) (some d) true
                        (some 0) (Or.inr rfl), convLoop_zero op N]
                    simp [progressOf_cancelledMap, countNC_cancelledMap]
                  · have e2 : k + 1 + 1 = k + 2 := rfl
                    rw [e2, bm_cons_mkok_succ_succ op mk d N i p ps att k hmk,
                      bm_eq_conv op mk N ps (i + 1) (att + 1) (some d) true
                        (some k) (Or.inr rfl)]
                    simp only [progressOf_cons_mkdir, progressOf_cons_op,
                      progressOf_cons_fp, progressOf_cons_progress]
                    rw [countNC_cons_mkdir, countNC_cons_op,
                      countNC_cons_fp_ne _ _ _ (hop p), countNC_cons_progress,
                      List.range'_succ, convLoop_progress op N hop ps (i + 1)
                        (some k)]
                    simp
                · rw [bm_cons_mkfail_some op mk d N i p ps att k e hmk]
                  simp only [progressOf_cons_mkdir, progressOf_cons_fp,
                    progressOf_cons_progress]
                  rw [countNC_cons_mkdir,
                    countNC_cons_fp_ne _ _ _ (mkdirErrMsg_ne_cancelled d e),
                    countNC_cons_progress, List.range'_succ,
                    ih (i + 1) (att + 1) (some d) false (some k)]
                  simp

lemma bm_none_countNC (op : String → String) (mk : Nat → Option String)
    (N : Nat) (hop : ∀ p, op p ≠ "Cancelled") :
    ∀ (ps : List String) (i att : Nat) (od : Option String) (ex : Bool),
      countNC (batchMkdirLoop op mk od N i ps ex att none) = ps.length := by
  intro ps
  induction ps with
  | nil => intros; rfl
  | cons p ps ih =>
      intro i att od ex
      rcases od with _ | d
      · rw [bm_eq_conv op mk N _ i att none ex none (Or.inl rfl)]
        exact convLoop_none_countNC op N hop _ i
      · cases ex with
        | true =>
            rw [bm_eq_conv op mk N _ i att (some d) true none (Or.inr rfl)]
            exact convLoop_none_countNC op N hop _ i
        | false =>
            rcases hmk : mk att with _ | e
            · rw [bm_cons_mkok_none op mk d N i p ps att hmk,
                bm_eq_conv op mk N ps (i + 1) (att + 1) (some d) true none
                  (Or.inr rfl), convLoop_none]
              rw [countNC_cons_mkdir, countNC_cons_op,
                countNC_cons_fp_ne _ _ _ (hop p), countNC_cons_progress,
                countNC_fullItems op N hop (i + 1) ps]
              rfl
            · rw [bm_cons_mkfail_none op mk d N i p ps att e hmk]
              rw [countNC_cons_mkdir,
                countNC_cons_fp_ne _ _ _ (mkdirErrMsg_ne_cancelled d e),
                countNC_cons_progress, ih (i + 1) (att + 1) (some d) false]
              rfl

lemma bm_allFail_outcomes (op : String → String) (mk : Nat → Option String)
    (d e : String) (N : Nat) (hmk : ∀ n, mk n = some e) :
    ∀ (ps : List String) (i att : Nat),
      outcomesOf (batchMkdirLoop op mk (some d) N i ps false att none) =
        ps.map fun p => (p, mkdirErrMsg d e) := by
  intro ps
  induction ps with
  | nil => intros; rfl
  | cons p ps ih =>
      intro i att
      rw [bm_cons_mkfail_none op mk d N i p ps att e (hmk att)]
      simp [ih]

lemma bm_allFail_mkdirCalls (op : String → String) (mk : Nat → Option String)
    (d e : String) (N : Nat) (hmk : ∀ n, mk n = some e) :
    ∀ (ps : List String) (i att : Nat),
      mkdirCallsOf (batchMkdirLoop op mk (some d) N i ps false att none) =
        ps.length := by
  intro ps
  induction ps with
  | nil => intros; rfl
  | cons p ps ih =>
      intro i att
      rw [bm_cons_mkfail_none op mk d N i p ps att e (hmk att)]
      simp [ih]

/-! ## Run-level unfoldings under valid preconditions -/

lemma imageConversionRun_eq (op : String → String) (ps : List String)
    (d f : String) (c : Cancel) (h1 : ps ≠ []) (h2 : d ≠ "") (h3 : f ≠ "") :
    imageConversionRun op ps d f c =
      Ev.progress 0 ps.length :: convLoop op ps.length 0 ps c := by
  simp [imageConversionRun, h1, h2, h3]

lemma imageCompressionRun_eq (op : String → String)
    (mk : Nat → Option String) (ps : List String) (od : Option String)
    (ex0 : Bool) (c : Cancel) (h1 : ps ≠ []) :
    imageCompressionRun op mk ps od ex0 c =
      Ev.progress 0 ps.length ::
        batchMkdirLoop op mk od ps.length 0 ps ex0 0 c := by
  simp [imageCompressionRun, h1]

lemma imageResizingRun_eq (op : String → String) (mk : Nat → Option String)
    (ps : List String) (od : Option String) (tw th : Int) (ex0 : Bool)
    (c : Cancel) (h1 : ps ≠ []) (htw : 0 < tw) (hth : 0 < th) :
    imageResizingRun op mk ps od tw th ex0 c =
      Ev.progress 0 ps.length ::
        batchMkdirLoop op mk od ps.length 0 ps ex0 0 c := by
  have hcond : ¬(tw ≤ 0 ∨ th ≤ 0) := by omega
  simp [imageResizingRun, h1, hcond]

/-! ## Outcome-kind accounting -/

/-- Every outcome is classified into exactly one kind, so the three kind
counts always add up to the number of emitted outcomes. -/
lemma countKind_sum (evs : List Ev) :
    countKind evs Kind.success + countKind evs Kind.failure +
      countKind evs Kind.cancelled = (outcomesOf evs).length := by
  unfold countKind
  generalize outcomesOf evs = l
  induction l with
  | nil => rfl
  | cons x l ih =>
      have key : ∀ k : Kind,
          (List.filter (fun pr => classifyStatus pr.2 == k)
              ((x :: l) : List (String × String))).length =
            (if classifyStatus x.2 = k then 1 else 0) +
              (List.filter (fun pr => classifyStatus pr.2 == k) l).length := by
        intro k
        rw [List.filter_cons]
        by_cases h : classifyStatus x.2 = k
        · simp [beq_iff_eq.mpr h, h, Nat.add_comm]
        · simp [beq_eq_false_iff_ne.mpr h, h]
      rw [key, key, key]
      rcases classifyStatus x.2 with _ | _ | _ <;> simp <;> omega

/-! ## String helpers for the video status claims -/

lemma isPrefixOf_append (l₁ l₂ l₃ : List Char)
    (h : l₁.length ≤ l₂.length) :
    l₁.isPrefixOf (l₂ ++ l₃) = l₁.isPrefixOf l₂ := by
  induction l₁ generalizing l₂ with
  | nil => simp [List.isPrefixOf]
  | cons a as ih =>
      cases l₂ with
      | nil => simp at h
      | cons b bs =>
          simp [List.isPrefixOf, ih bs (by simpa using h)]

lemma strStarts_append (pre a b : String)
    (h : pre.data.length ≤ a.data.length) :
    strStarts pre (a ++ b) = strStarts pre a := by
  unfold strStarts
  rw [String.data_append]
  exact isPrefixOf_append _ _ _ h

lemma strIn_append_self (a n : String) : strIn n (a ++ n) = true := by
  unfold strIn
  rw [String.data_append]
  refine List.any_eq_true.mpr ⟨n.data, ?_, ?_⟩
  · exact (List.mem_tails _ _).mpr (List.suffix_append a.data n.data)
  · simp [ List.isPrefixOf_iff_prefix]

lemma opAllSuccess_ne_cancelled (p : String) :
    opAllSuccess p ≠ "Cancelled" := by
  unfold opAllSuccess
  decide

lemma outcomes_length_of_mapFst {evs : List Ev} {ps : List String}
    (h : (outcomesOf evs).map Prod.fst = ps) :
    (outcomesOf evs).length = ps.length := by
  rw [← h, List.length_map]

/-! ## Claims -/

/-- Claim C1: for every batch run over `N ≥ 1` input paths (shown for the
conversion and compression runners, over every operation result, `makedirs`
result, and cancellation schedule), the runner emits exactly one
`file_processed` outcome per input path — the emitted `(path, status)` pairs
project to exactly the input list — and, classifying each outcome as exactly
one of Success/Failure/Cancelled the way the widget handlers do,
`success_count + failure_count + cancelled_count = N` after the run. -/
theorem claim_C1_outcome_accounting (op : String → String)
    (mk : Nat → Option String) (input_paths : List String)
    (output_dir target_format : String) (od : Option String)
    (dirExists0 : Bool) (c c' : Cancel) (h1 : input_paths ≠ [])
    (h2 : output_dir ≠ "") (h3 : target_format ≠ "") :
    ((outcomesOf (imageConversionRun op input_paths output_dir target_format
        c)).map Prod.fst = input_paths ∧
      countKind (imageConversionRun op input_paths output_dir target_format c)
          Kind.success +
        countKind (imageConversionRun op input_paths output_dir target_format
          c) Kind.failure +
        countKind (imageConversionRun op input_paths output_dir target_format
          c) Kind.cancelled = input_paths.length) ∧
    ((outcomesOf (imageCompressionRun op mk input_paths od dirExists0
        c')).map Prod.fst = input_paths ∧
      countKind (imageCompressionRun op mk input_paths od dirExists0 c')
          Kind.success +
        countKind (imageCompressionRun op mk input_paths od dirExists0 c')
          Kind.failure +
        countKind (imageCompressionRun op mk input_paths od dirExists0 c')
          Kind.cancelled = input_paths.length) := by
  have hconv := imageConversionRun_eq op input_paths output_dir target_format
    c h1 h2 h3
  have hcomp := imageCompressionRun_eq op mk input_paths od dirExists0 c' h1
  have hcfst : (outcomesOf (imageConversionRun op input_paths output_dir
      target_format c)).map Prod.fst = input_paths := by
    rw [hconv]
    simp only [outcomesOf_cons_progress]
    exact convLoop_mapFst op _ input_paths 0 c
  have hpfst : (outcomesOf (imageCompressionRun op mk input_paths od
      dirExists0 c')).map Prod.fst = input_paths := by
    rw [hcomp]
    simp only [outcomesOf_cons_progress]
    exact bm_mapFst op mk _ input_paths 0 0 od dirExists0 c'
  exact ⟨⟨hcfst, (countKind_sum _).trans (outcomes_length_of_mapFst hcfst)⟩,
    ⟨hpfst, (countKind_sum _).trans (outcomes_length_of_mapFst hpfst)⟩⟩

/-- Witness for C1 at a concrete one-item run of each runner. -/
theorem claim_C1_outcome_accounting_witness :
    ((outcomesOf (imageConversionRun opAllSuccess ["a.png"] "out" "png"
        none)).map Prod.fst = ["a.png"] ∧
      countKind (imageConversionRun opAllSuccess ["a.png"] "out" "png" none)
          Kind.success +
        countKind (imageConversionRun opAllSuccess ["a.png"] "out" "png" none)
          Kind.failure +
        countKind (imageConversionRun opAllSuccess ["a.png"] "out" "png" none)
          Kind.cancelled = 1) ∧
    ((outcomesOf (imageCompressionRun opAllSuccess mkAllOk ["a.png"] none
        false none)).map Prod.fst = ["a.png"] ∧
      countKind (imageCompressionRun opAllSuccess mkAllOk ["a.png"] none false
          none) Kind.success +
        countKind (imageCompressionRun opAllSuccess mkAllOk ["a.png"] none
          false none) Kind.failure +
        countKind (imageCompressionRun opAllSuccess mkAllOk ["a.png"] none
          false none) Kind.cancelled = 1) :=
  claim_C1_outcome_accounting opAllSuccess mkAllOk ["a.png"] "out" "png" none
    false none none (by decide) (by decide) (by decide)

/-- Claim C2: cancelling between item `k` and item `k+1` (the flag reads of
the first `k` items see `True`, every later read sees `False`) leaves items
`1..k` with their original operation outcomes and marks every remaining item
`Cancelled`; with `k = 0` every item is `Cancelled`.  Shown for the
conversion runner (all parameters) and the resizing runner (no `makedirs`
interleaving: in-place output or pre-existing directory). -/
theorem claim_C2_cancellation_boundary (op : String → String)
    (mk : Nat → Option String) (input_paths : List String)
    (output_dir target_format : String) (od : Option String)
    (dirExists0 : Bool) (tw th : Int) (k : Nat) (h1 : input_paths ≠ [])
    (h2 : output_dir ≠ "") (h3 : target_format ≠ "") (htw : 0 < tw)
    (hth : 0 < th) (_hk : k ≤ input_paths.length)
    (hnm : od = none ∨ dirExists0 = true) :
    outcomesOf (imageConversionRun op input_paths output_dir target_format
        (some (2 * k))) =
      (input_paths.take k).map (fun p => (p, op p)) ++
        (input_paths.drop k).map (fun p => (p, "Cancelled")) ∧
    outcomesOf (imageResizingRun op mk input_paths od tw th dirExists0
        (some (2 * k))) =
      (input_paths.take k).map (fun p => (p, op p)) ++
        (input_paths.drop k).map (fun p => (p, "Cancelled")) := by
  constructor
  · rw [imageConversionRun_eq op input_paths output_dir target_format _ h1 h2
      h3]
    simp only [outcomesOf_cons_progress]
    rw [convLoop_even]
    simp only [outcomesOf_append, outcomesOf_fullItems,
      outcomesOf_cancelledMap]
  · rw [imageResizingRun_eq op mk input_paths od tw th dirExists0 _ h1 htw
      hth, bm_eq_conv op mk _ input_paths 0 0 od dirExists0 _ hnm]
    simp only [outcomesOf_cons_progress]
    rw [convLoop_even]
    simp only [outcomesOf_append, outcomesOf_fullItems,
      outcomesOf_cancelledMap]

/-- Witness for C2: two-item run, cancellation after the first item. -/
theorem claim_C2_cancellation_boundary_witness :
    outcomesOf (imageConversionRun opAllSuccess ["a", "b"] "o" "png"
        (some 2)) =
      [("a", "Success"), ("b", "Cancelled")] ∧
    outcomesOf (imageResizingRun opAllSuccess mkAllOk ["a", "b"] none 800 600
        false (some 2)) =
      [("a", "Success"), ("b", "Cancelled")] :=
  claim_C2_cancellation_boundary opAllSuccess mkAllOk ["a", "b"] "o" "png"
    none false 800 600 1 (by decide) (by decide) (by decide) (by decide)
    (by decide) (by decide) (Or.inl rfl)

/-- Counterexample to claim C3: a one-item conversion run in which `stop()`
lands between the loop-top check and the post-item check.  The item's outcome
is emitted as `Cancelled`, and no `progress(1, 1)` snapshot follows it — the
run's only snapshot is the initial `(0, 1)` — contradicting "a Progress
Snapshot is emitted after each Item Outcome for every outcome kind,
including Cancelled items". -/
theorem claim_C3_counterexample :
    outcomesOf (imageConversionRun opAllSuccess ["a.png"] "out" "png"
        (some 1)) = [("a.png", "Cancelled")] ∧
    progressOf (imageConversionRun opAllSuccess ["a.png"] "out" "png"
        (some 1)) = [(0, 1)] ∧
    (1, 1) ∉ progressOf (imageConversionRun opAllSuccess ["a.png"] "out"
        "png" (some 1)) := by decide

/-- Claim C3, amended: the batch runner emits a `progress` snapshot with
`completed_count` incremented by one after every item outcome *other than
Cancelled* (directory-creation failures included); Cancelled outcomes emit
no snapshot.  The snapshots of a run are exactly `(0,N), (1,N), …, (m,N)`
where `m` is the number of non-Cancelled outcomes, so a run with no
cancellation request ends with snapshot `(N, N)`.  Shown for the conversion
and compression runners. -/
theorem claim_C3_amended_progress (op : String → String)
    (mk : Nat → Option String) (input_paths : List String)
    (output_dir target_format : String) (od : Option String)
    (dirExists0 : Bool) (c c' : Cancel) (h1 : input_paths ≠ [])
    (h2 : output_dir ≠ "") (h3 : target_format ≠ "")
    (hop : ∀ p, op p ≠ "Cancelled") :
    (progressOf (imageConversionRun op input_paths output_dir target_format
        c) =
      (List.range (countNC (imageConversionRun op input_paths output_dir
          target_format c) + 1)).map fun j => (j, input_paths.length)) ∧
    (c = none →
      countNC (imageConversionRun op input_paths output_dir target_format c) =
        input_paths.length) ∧
    (progressOf (imageCompressionRun op mk input_paths od dirExists0 c') =
      (List.range (countNC (imageCompressionRun op mk input_paths od
          dirExists0 c') + 1)).map fun j => (j, input_paths.length)) ∧
    (c' = none →
      countNC (imageCompressionRun op mk input_paths od dirExists0 c') =
        input_paths.length) := by
  have hconv := imageConversionRun_eq op input_paths output_dir target_format
    c h1 h2 h3
  have hcomp := imageCompressionRun_eq op mk input_paths od dirExists0 c' h1
  refine ⟨?_, ?_, ?_, ?_⟩
  · rw [hconv]
    simp only [progressOf_cons_progress, countNC_cons_progress]
    rw [convLoop_progress op _ hop input_paths 0 c,
      List.range_eq_range' _, List.range'_succ]
    simp
  · intro hcn
    subst hcn
    rw [hconv]
    simp only [countNC_cons_progress]
    exact convLoop_none_countNC op _ hop input_paths 0
  · rw [hcomp]
    simp only [progressOf_cons_progress, countNC_cons_progress]
    rw [bm_progress op mk _ hop input_paths 0 0 od dirExists0 c',
      List.range_eq_range' _, List.range'_succ]
    simp
  · intro hcn
    subst hcn
    rw [hcomp]
    simp only [countNC_cons_progress]
    exact bm_none_countNC op mk _ hop input_paths 0 0 od dirExists0

/-- Witness for the amended C3 at a concrete one-item run of each runner. -/
theorem claim_C3_amended_progress_witness :
    (progressOf (imageConversionRun opAllSuccess ["a.png"] "out" "png" none) =
      (List.range (countNC (imageConversionRun opAllSuccess ["a.png"] "out"
          "png" none) + 1)).map fun j => (j, 1)) ∧
    (none = (none : Cancel) →
      countNC (imageConversionRun opAllSuccess ["a.png"] "out" "png" none) =
        1) ∧
    (progressOf (imageCompressionRun opAllSuccess mkAllOk ["a.png"] none false
        none) =
      (List.range (countNC (imageCompressionRun opAllSuccess mkAllOk ["a.png"]
          none false none) + 1)).map fun j => (j, 1)) ∧
    (none = (none : Cancel) →
      countNC (imageCompressionRun opAllSuccess mkAllOk ["a.png"] none false
        none) = 1) :=
  claim_C3_amended_progress opAllSuccess mkAllOk ["a.png"] "out" "png" none
    false none none (by decide) (by decide) (by decide)
    opAllSuccess_ne_cancelled

/-- Claim C4: for positive original and target sizes, the aspect-locked
resize computes `w = max(1, floor(W*r))`, `h = max(1, floor(H*r))` with
`r = min(Tw/W, Th/H)` — the source's `int(...)` truncation coincides with
`floor` because the scaled values are non-negative — and with the lock off
the output is exactly `(Tw, Th)`. -/
theorem claim_C4_resize_dimensions (W H Tw Th : Nat) (hW : 0 < W)
    (hH : 0 < H) (hTw : 0 < Tw) (hTh : 0 < Th) :
    computeNewSize W H Tw Th true = specAspectLockedDims W H Tw Th ∧
    computeNewSize W H Tw Th false = (Tw, Th) := by
  refine ⟨?_, rfl⟩
  have hr : (0 : ℚ) ≤ min ((Tw : ℚ) / (W : ℚ)) ((Th : ℚ) / (H : ℚ)) :=
    le_min (by positivity) (by positivity)
  have hw : (0 : ℚ) ≤
      (W : ℚ) * min ((Tw : ℚ) / (W : ℚ)) ((Th : ℚ) / (H : ℚ)) :=
    mul_nonneg (by positivity) hr
  have hh : (0 : ℚ) ≤
      (H : ℚ) * min ((Tw : ℚ) / (W : ℚ)) ((Th : ℚ) / (H : ℚ)) :=
    mul_nonneg (by positivity) hr
  simp [computeNewSize, specAspectLockedDims, pyInt, hw, hh]

/-- Witness for C4 at original size 4x3, target 2x2. -/
theorem claim_C4_resize_dimensions_witness :
    computeNewSize 4 3 2 2 true = specAspectLockedDims 4 3 2 2 ∧
    computeNewSize 4 3 2 2 false = (2, 2) :=
  claim_C4_resize_dimensions 4 3 2 2 (by decide) (by decide) (by decide)
    (by decide)

/-- Claim C5 is refuted by `ConverterWidget` (code bug): from the idle state,
`_start_conversion` refreshes the Convert button *before* constructing the
worker and never after `worker.start()`, so the button stays enabled during
the run; a second click while the first worker is still running passes the
input checks, shows no "in progress" notice, and constructs and starts a
second `ImageConversionWorker`.  This theorem evaluates the embedded
controller at that failing input: after the first click the worker is active
yet the button is still enabled; a second click is therefore deliverable and
yields two started runners and an empty notice list. -/
theorem claim_C5_second_start_not_rejected :
    (clickConvert convIdleState).workerActive = true ∧
    (clickConvert convIdleState).convertEnabled = true ∧
    (clickConvert convIdleState).runnersStarted = 1 ∧
    (clickConvert (clickConvert convIdleState)).runnersStarted = 2 ∧
    (clickConvert (clickConvert convIdleState)).workerActive = true ∧
    (clickConvert (clickConvert convIdleState)).notices = [] := by decide

/-! ## String facts about the video status messages -/

lemma strStarts_success_ok (out : String) :
    strStarts "Success" ("Success (" ++ out ++ ")") = true := by
  have h9 : ("Success (" : String).data.length = 9 := rfl
  have h7 : ("Success" : String).data.length = 7 := rfl
  have hlen : ("Success" : String).data.length ≤
      ("Success (" ++ out).data.length := by
    rw [String.data_append, List.length_append, h9, h7]
    omega
  rw [strStarts_append _ _ _ hlen, strStarts_append _ _ _ (by decide)]
  decide

lemma strStarts_success_reported (v : String) :
    strStarts "Success"
      ("Error: FFmpeg reported issues.\nDetails:\n" ++ v) = false := by
  rw [strStarts_append _ _ _ (by decide)]
  decide

lemma strStarts_success_failed (rc v : String) :
    strStarts "Success"
      ("Error: FFmpeg failed (code " ++ rc ++ ").\nDetails:\n" ++ v) =
      false := by
  have h27 : ("Error: FFmpeg failed (code " : String).data.length = 27 := rfl
  have h7 : ("Success" : String).data.length = 7 := rfl
  have hl2 : ("Success" : String).data.length ≤
      ("Error: FFmpeg failed (code " ++ rc).data.length := by
    rw [String.data_append, List.length_append, h27, h7]
    omega
  have hl1 : ("Success" : String).data.length ≤
      ("Error: FFmpeg failed (code " ++ rc ++ ").\nDetails:\n").data.length := by
    rw [String.data_append, List.length_append, h7]
    have := hl2
    rw [h7] at this
    omega
  rw [strStarts_append _ _ _ hl1, strStarts_append _ _ _ hl2,
    strStarts_append _ _ _ (by decide)]
  decide

/-- Claim C6: when the encoder process completes without cancellation (the
`_is_running` flag is still set at the post-`communicate()` check and in the
`finally` block), the terminal status is a Success iff the exit code is zero
and the diagnostic stream contains neither `"Error"` (case-sensitive) nor
`"failed"` (case-insensitive); every failure status embeds the last 500
characters of the diagnostic stream. -/
theorem claim_C6_video_success_criterion (return_code : Int)
    (std_err output_filename : String) :
    (strStarts "Success" (videoTerminalStatus true true return_code std_err
        output_filename) = true ↔
      (return_code = 0 ∧ strIn "Error" std_err = false ∧
        strIn "failed" (strLower std_err) = false)) ∧
    (strStarts "Success" (videoTerminalStatus true true return_code std_err
        output_filename) = false →
      strIn (lastChars 500 std_err) (videoTerminalStatus true true
        return_code std_err output_filename) = true) := by
  by_cases hrc : return_code = 0
  · cases hE : strIn "Error" std_err with
    | false =>
        cases hF : strIn "failed" (strLower std_err) with
        | false =>
            have hst : videoTerminalStatus true true return_code std_err
                output_filename = "Success (" ++ output_filename ++ ")" := by
              simp [videoTerminalStatus, videoResultStatus, hrc, hE, hF]
            rw [hst]
            constructor
            · constructor
              · intro _
                exact ⟨hrc, rfl, rfl⟩
              · intro _
                exact strStarts_success_ok output_filename
            · intro hcontra
              rw [strStarts_success_ok] at hcontra
              cases hcontra
        | true =>
            have hst : videoTerminalStatus true true return_code std_err
                output_filename =
                "Error: FFmpeg reported issues.\nDetails:\n" ++
                  lastChars 500 std_err := by
              simp [videoTerminalStatus, videoResultStatus, hrc, hE, hF]
            rw [hst]
            constructor
            · rw [strStarts_success_reported]
              constructor
              · intro h
                cases h
              · rintro ⟨_, _, hbad⟩
                exact Bool.noConfusion hbad
            · intro _
              exact strIn_append_self _ _
    | true =>
        have hst : videoTerminalStatus true true return_code std_err
            output_filename =
            "Error: FFmpeg reported issues.\nDetails:\n" ++
              lastChars 500 std_err := by
          simp [videoTerminalStatus, videoResultStatus, hrc, hE]
        rw [hst]
        constructor
        · rw [strStarts_success_reported]
          constructor
          · intro h
            cases h
          · rintro ⟨_, hbad, _⟩
            exact Bool.noConfusion hbad
        · intro _
          exact strIn_append_self _ _
  · have hst : videoTerminalStatus true true return_code std_err
        output_filename =
        "Error: FFmpeg failed (code " ++ toString return_code ++
          ").\nDetails:\n" ++ lastChars 500 std_err := by
      simp [videoTerminalStatus, videoResultStatus, hrc]
    rw [hst]
    constructor
    · rw [strStarts_success_failed]
      constructor
      · intro h
        cases h
      · rintro ⟨h0, _, _⟩
        exact absurd h0 hrc
    · intro _
      exact strIn_append_self _ _

/-- Witness for C6: exit code 1 with diagnostics `"boom"` is a failure whose
message carries the diagnostics tail. -/
theorem claim_C6_video_success_criterion_witness :
    strIn (lastChars 500 "boom")
      (videoTerminalStatus true true 1 "boom" "x.mp4") = true :=
  (claim_C6_video_success_criterion 1 "boom" "x.mp4").2 (by decide)

/-- Counterexample to claim C7: the conversion runner never creates the
output directory.  On a two-item conversion run against a missing directory
(every `Image.save` raises `FileNotFoundError`), zero `makedirs` attempts
occur — refuting "the batch runner creates the directory lazily when first
needed" — while each item is reported as a per-item Failure and the batch
continues. -/
theorem claim_C7_counterexample :
    ¬ 0 < mkdirCallsOf (imageConversionRun opSaveFnf ["a.png", "b.png"]
        "missing_dir" "png" none) ∧
    outcomesOf (imageConversionRun opSaveFnf ["a.png", "b.png"] "missing_dir"
        "png" none) =
      [("a.png", "Error: File not found"),
        ("b.png", "Error: File not found")] := by decide

/-- Claim C7, amended: the compression and resizing runners create an
explicit output directory lazily — nothing is created while the directory
exists; when it is missing, the first processed item triggers exactly one
(successful) `makedirs` attempt; a creation failure is reported as that
item's `Failure` outcome and the batch continues through every remaining
item.  The conversion runner never creates the output directory — a missing
directory surfaces as ordinary per-item failures from the save step. -/
theorem claim_C7_amended_lazy_mkdir (op : String → String)
    (mkF mkO : Nat → Option String) (input_paths rest : List String)
    (p d e target_format : String) (od : Option String) (tw th : Int)
    (c c₂ c₃ : Cancel) (h1 : input_paths ≠ []) (htw : 0 < tw) (hth : 0 < th)
    (hmkF : ∀ n, mkF n = some e) (hmkO : mkO 0 = none) :
    mkdirCallsOf (imageConversionRun op input_paths d target_format c) = 0 ∧
    mkdirCallsOf (imageCompressionRun op mkF input_paths od true c₂) = 0 ∧
    outcomesOf (imageCompressionRun op mkF input_paths (some d) false none) =
      input_paths.map (fun q => (q, mkdirErrMsg d e)) ∧
    mkdirCallsOf (imageCompressionRun op mkF input_paths (some d) false
      none) = input_paths.length ∧
    mkdirCallsOf (imageCompressionRun op mkO (p :: rest) (some d) false
      none) = 1 ∧
    mkdirCallsOf (imageResizingRun op mkF input_paths od tw th true c₃) = 0 ∧
    outcomesOf (imageResizingRun op mkF input_paths (some d) tw th false
        none) =
      input_paths.map (fun q => (q, mkdirErrMsg d e)) := by
  refine ⟨?_, ?_, ?_, ?_, ?_, ?_, ?_⟩
  · unfold imageConversionRun
    split_ifs <;> simp [convLoop_mkdirCalls]
  · unfold imageCompressionRun
    split_ifs with hemp
    · rfl
    · rw [bm_eq_conv op mkF _ input_paths 0 0 od true c₂ (Or.inr rfl)]
      simp [convLoop_mkdirCalls]
  · rw [imageCompressionRun_eq op mkF input_paths (some d) false none h1]
    simp only [outcomesOf_cons_progress]
    exact bm_allFail_outcomes op mkF d e _ hmkF input_paths 0 0
  · rw [imageCompressionRun_eq op mkF input_paths (some d) false none h1]
    simp only [mkdirCallsOf_cons_progress]
    exact bm_allFail_mkdirCalls op mkF d e _ hmkF input_paths 0 0
  · rw [imageCompressionRun_eq op mkO (p :: rest) (some d) false none
      (by simp)]
    simp only [mkdirCallsOf_cons_progress]
    rw [bm_cons_mkok_none op mkO d _ 0 p rest 0 hmkO,
      bm_eq_conv op mkO _ rest 1 1 (some d) true none (Or.inr rfl),
      convLoop_none]
    simp [mkdirCallsOf_fullItems]
  · unfold imageResizingRun
    split_ifs with hemp hdim
    · rfl
    · rfl
    · rw [bm_eq_conv op mkF _ input_paths 0 0 od true c₃ (Or.inr rfl)]
      simp [convLoop_mkdirCalls]
  · rw [imageResizingRun_eq op mkF input_paths (some d) tw th false none h1
      htw hth]
    simp only [outcomesOf_cons_progress]
    exact bm_allFail_outcomes op mkF d e _ hmkF input_paths 0 0

/-- Witness for the amended C7 at concrete one-item runs. -/
theorem claim_C7_amended_lazy_mkdir_witness :
    mkdirCallsOf (imageConversionRun opAllSuccess ["a.png"] "newdir" "png"
      none) = 0 ∧
    mkdirCallsOf (imageCompressionRun opAllSuccess mkAllFail ["a.png"] none
      true none) = 0 ∧
    outcomesOf (imageCompressionRun opAllSuccess mkAllFail ["a.png"]
        (some "newdir") false none) =
      ["a.png"].map (fun q => (q, mkdirErrMsg "newdir" "Permission denied")) ∧
    mkdirCallsOf (imageCompressionRun opAllSuccess mkAllFail ["a.png"]
      (some "newdir") false none) = 1 ∧
    mkdirCallsOf (imageCompressionRun opAllSuccess mkAllOk ["a.png"]
      (some "newdir") false none) = 1 ∧
    mkdirCallsOf (imageResizingRun opAllSuccess mkAllFail ["a.png"] none 800
      600 true none) = 0 ∧
    outcomesOf (imageResizingRun opAllSuccess mkAllFail ["a.png"]
        (some "newdir") 800 600 false none) =
      ["a.png"].map
        (fun q => (q, mkdirErrMsg "newdir" "Permission denied")) :=
  claim_C7_amended_lazy_mkdir opAllSuccess mkAllFail mkAllOk ["a.png"] []
    "a.png" "newdir" "Permission denied" "png" none 800 600 none none none
    (by decide) (by decide) (by decide) (fun n => rfl) rfl

/-- Claim C8: the video quality table maps 1↦30, 2↦28, 3↦25, 4↦23, 5↦20, and
`dict.get(quality_level, 25)` yields the default CRF 25 for every level
outside the table. -/
theorem claim_C8_quality_to_crf :
    crfForQuality 1 = 30 ∧ crfForQuality 2 = 28 ∧ crfForQuality 3 = 25 ∧
    crfForQuality 4 = 23 ∧ crfForQuality 5 = 20 ∧
    ∀ q : Int, q ≠ 1 → q ≠ 2 → q ≠ 3 → q ≠ 4 → q ≠ 5 →
      crfForQuality q = 25 := by
  refine ⟨rfl, rfl, rfl, rfl, rfl, ?_⟩
  intro q hq1 hq2 hq3 hq4 hq5
  simp [crfForQuality, QUALITY_TO_CRF, hq1, hq2, hq3, hq4, hq5]

/-- Witness for C8 at the unmapped level 0. -/
theorem claim_C8_quality_to_crf_witness : crfForQuality 0 = 25 :=
  claim_C8_quality_to_crf.2.2.2.2.2 0 (by decide) (by decide) (by decide)
    (by decide) (by decide)

/-- Facts about a batch run whose cancellation lands between the loop-top
check of item `j` (0-based) and its post-item check: items before `j` are
processed normally, item `j`'s media operation runs (its `opCall` ghost event
is in the trace) yet its outcome — and every later outcome — is `Cancelled`,
and the progress snapshots stop at `(j, N)`. -/
lemma oddRunFacts (op : String → String) (ps : List String) (j : Nat)
    (hj : j < ps.length) (evs : List Ev)
    (he : evs = Ev.progress 0 ps.length ::
      convLoop op ps.length 0 ps (some (2 * j + 1))) :
    outcomesOf evs =
      (ps.take j).map (fun p => (p, op p)) ++
        (ps.drop j).map (fun p => (p, "Cancelled")) ∧
    Ev.opCall (ps.get ⟨j, hj⟩) ∈ evs ∧
    progressOf evs = (List.range (j + 1)).map fun t => (t, ps.length) := by
  subst he
  rw [convLoop_odd op ps.length j 0 ps hj]
  refine ⟨?_, ?_, ?_⟩
  · simp only [outcomesOf_cons_progress, outcomesOf_append,
      outcomesOf_fullItems, outcomesOf_cons_op, outcomesOf_cons_fp,
      outcomesOf_cancelledMap]
    congr 1
    rw [List.drop_eq_getElem_cons hj, List.map_cons, List.get_eq_getElem]
  · refine List.mem_cons_of_mem _ (List.mem_append_right _ ?_)
    exact List.mem_cons_self _ _
  · simp only [progressOf_cons_progress, progressOf_append,
      progressOf_fullItems, progressOf_cons_op, progressOf_cons_fp,
      progressOf_cancelledMap, List.append_nil]
    have hlt : (ps.take j).length = j := by
      rw [List.length_take]
      omega
    rw [hlt, List.range_eq_range' _, List.range'_succ]
    simp

/-- Claim C9: if `stop()` clears the flag after item `j`'s loop-top check but
before its post-item check (the first `2j+1` flag reads see `True`), the
item's media operation still runs to completion — `opCall` for that path is
in the trace, so its output may be written to disk — yet its outcome is
emitted as `Cancelled` rather than its actual result, and no progress
snapshot is emitted for it (the snapshots stop at `(j, N)`).  Shown for the
conversion runner, and for the compression and resizing runners saving in
place. -/
theorem claim_C9_inflight_cancellation (op : String → String)
    (mk mk' : Nat → Option String) (input_paths : List String)
    (output_dir target_format : String) (tw th : Int) (ex0 ex1 : Bool)
    (j : Nat) (hj : j < input_paths.length) (h1 : input_paths ≠ [])
    (h2 : output_dir ≠ "") (h3 : target_format ≠ "") (htw : 0 < tw)
    (hth : 0 < th) :
    (outcomesOf (imageConversionRun op input_paths output_dir target_format
        (some (2 * j + 1))) =
      (input_paths.take j).map (fun p => (p, op p)) ++
        (input_paths.drop j).map (fun p => (p, "Cancelled")) ∧
      Ev.opCall (input_paths.get ⟨j, hj⟩) ∈
        imageConversionRun op input_paths output_dir target_format
          (some (2 * j + 1)) ∧
      progressOf (imageConversionRun op input_paths output_dir target_format
          (some (2 * j + 1))) =
        (List.range (j + 1)).map fun t => (t, input_paths.length)) ∧
    (outcomesOf (imageCompressionRun op mk input_paths none ex0
        (some (2 * j + 1))) =
      (input_paths.take j).map (fun p => (p, op p)) ++
        (input_paths.drop j).map (fun p => (p, "Cancelled")) ∧
      Ev.opCall (input_paths.get ⟨j, hj⟩) ∈
        imageCompressionRun op mk input_paths none ex0 (some (2 * j + 1)) ∧
      progressOf (imageCompressionRun op mk input_paths none ex0
          (some (2 * j + 1))) =
        (List.range (j + 1)).map fun t => (t, input_paths.length)) ∧
    (outcomesOf (imageResizingRun op mk' input_paths none tw th ex1
        (some (2 * j + 1))) =
      (input_paths.take j).map (fun p => (p, op p)) ++
        (input_paths.drop j).map (fun p => (p, "Cancelled")) ∧
      Ev.opCall (input_paths.get ⟨j, hj⟩) ∈
        imageResizingRun op mk' input_paths none tw th ex1
          (some (2 * j + 1)) ∧
      progressOf (imageResizingRun op mk' input_paths none tw th ex1
          (some (2 * j + 1))) =
        (List.range (j + 1)).map fun t => (t, input_paths.length)) := by
  refine ⟨?_, ?_, ?_⟩
  · exact oddRunFacts op input_paths j hj _
      (imageConversionRun_eq op input_paths output_dir target_format _ h1 h2
        h3)
  · refine oddRunFacts op input_paths j hj _ ?_
    rw [imageCompressionRun_eq op mk input_paths none ex0 _ h1,
      bm_eq_conv op mk _ input_paths 0 0 none ex0 _ (Or.inl rfl)]
  · refine oddRunFacts op input_paths j hj _ ?_
    rw [imageResizingRun_eq op mk' input_paths none tw th ex1 _ h1 htw hth,
      bm_eq_conv op mk' _ input_paths 0 0 none ex1 _ (Or.inl rfl)]

/-- Witness for C9: two-item runs cancelled while item 2's operation is in
flight. -/
theorem claim_C9_inflight_cancellation_witness :
    (outcomesOf (imageConversionRun opAllSuccess ["a", "b"] "o" "png"
        (some 3)) =
      [("a", "Success"), ("b", "Cancelled")] ∧
      Ev.opCall "b" ∈
        imageConversionRun opAllSuccess ["a", "b"] "o" "png" (some 3) ∧
      progressOf (imageConversionRun opAllSuccess ["a", "b"] "o" "png"
          (some 3)) = [(0, 2), (1, 2)]) ∧
    (outcomesOf (imageCompressionRun opAllSuccess mkAllOk ["a", "b"] none
        false (some 3)) =
      [("a", "Success"), ("b", "Cancelled")] ∧
      Ev.opCall "b" ∈
        imageCompressionRun opAllSuccess mkAllOk ["a", "b"] none false
          (some 3) ∧
      progressOf (imageCompressionRun opAllSuccess mkAllOk ["a", "b"] none
          false (some 3)) = [(0, 2), (1, 2)]) ∧
    (outcomesOf (imageResizingRun opAllSuccess mkAllOk ["a", "b"] none 800
        600 false (some 3)) =
      [("a", "Success"), ("b", "Cancelled")] ∧
      Ev.opCall "b" ∈
        imageResizingRun opAllSuccess mkAllOk ["a", "b"] none 800 600 false
          (some 3) ∧
      progressOf (imageResizingRun opAllSuccess mkAllOk ["a", "b"] none 800
          600 false (some 3)) = [(0, 2), (1, 2)]) :=
  claim_C9_inflight_cancellation opAllSuccess mkAllOk mkAllOk ["a", "b"] "o"
    "png" 800 600 false false 1 (by decide) (by decide) (by decide)
    (by decide) (by decide) (by decide)

/-- Claim C10: if `stop()` clears `_is_running` before
`BackgroundRemovalWorker.run`'s post-operation check (or before the initial
check), a successfully computed removal result is discarded — no
`result_ready` and no `error` signal is emitted — while QThread's `finished`
signal is still delivered. -/
theorem claim_C10_cancelled_result_discarded (output_data : String) :
    backgroundRemovalRun (Except.ok output_data) (some 1) =
      [BgEv.finishedSig] ∧
    backgroundRemovalRun (Except.ok output_data) (some 0) =
      [BgEv.finishedSig] :=
  ⟨rfl, rfl⟩

/-! Concrete evaluations of the embedding, checked by the kernel. -/
example :
    imageConversionRun opAllSuccess ["a", "b"] "o" "png" none =
      [Ev.progress 0 2, Ev.opCall "a", Ev.fileProcessed "a" "Success",
        Ev.progress 1 2, Ev.opCall "b", Ev.fileProcessed "b" "Success",
        Ev.progress 2 2] := by decide

example :
    imageConversionRun opAllSuccess ["a", "b"] "o" "png" (some 2) =
      [Ev.progress 0 2, Ev.opCall "a", Ev.fileProcessed "a" "Success",
        Ev.progress 1 2, Ev.fileProcessed "b" "Cancelled"] := by decide

example :
    imageConversionRun opAllSuccess ["a", "b"] "o" "png" (some 3) =
      [Ev.progress 0 2, Ev.opCall "a", Ev.fileProcessed "a" "Success",
        Ev.progress 1 2, Ev.opCall "b", Ev.fileProcessed "b" "Cancelled"] := by
  decide

example :
    imageCompressionRun opAllSuccess mkAllFail ["a", "b"] (some "d") false
        none =
      [Ev.progress 0 2, Ev.mkdirCall 0 false,
        Ev.fileProcessed "a" (mkdirErrMsg "d" "Permission denied"),
        Ev.progress 1 2, Ev.mkdirCall 1 false,
        Ev.fileProcessed "b" (mkdirErrMsg "d" "Permission denied"),
        Ev.progress 2 2] := by decide

example :
    imageCompressionRun opAllSuccess mkAllOk ["a", "b"] (some "d") false
        none =
      [Ev.progress 0 2, Ev.mkdirCall 0 true, Ev.opCall "a",
        Ev.fileProcessed "a" "Success", Ev.progress 1 2, Ev.opCall "b",
        Ev.fileProcessed "b" "Success", Ev.progress 2 2] := by decide

example :
    computeNewSize 4 3 2 2 true = (2, 1) := by
  have hmin : ((2 : ℚ) / 4) ⊓ ((2 : ℚ) / 3) = 1 / 2 := by
    rw [min_def]
    norm_num
  norm_num [computeNewSize, pyInt, hmin]
  rfl

example : videoTerminalStatus true true 0 "" "x.mp4" = "Success (x.mp4)" := by
  decide

example :
    videoTerminalStatus true true 0 "Something failed here" "x.mp4" =
      "Error: FFmpeg reported issues.\nDetails:\nSomething failed here" := by
  decide

example : crfForQuality 3 = 25 ∧ crfForQuality 9 = 25 := by decide

example :
    backgroundRemovalRun (Except.ok "bytes") none =
      [BgEv.resultReady "bytes", BgEv.finishedSig] := by decide

example :
    backgroundRemovalRun (Except.ok "bytes") (some 1) = [BgEv.finishedSig] := by
  decide

example :
    (clickConvert (clickConvert convIdleState)).runnersStarted = 2 := by decide

end Pixleon
